import Mathlib

/-!
Verification development for the salions-matricules ingestion-and-analytics
engine.  The definitions below are a shallow embedding of the JavaScript
sources: the header-dialect CSV parser (`csv-parser.js`), the headerless
semicolon-dialect parser, and the `DataAnalyzer` grouping/analytics pass.
Calendar dates are modelled as integers counting milliseconds since the Unix
epoch (the value of `Date.getTime()`), taken in UTC.
-/

/-! ## Character and string helpers (modelling the JavaScript string operations) -/

/-- Whitespace characters recognised by the JavaScript `trim` and `\s`
(restricted to the ASCII whitespace actually occurring in the inputs). -/
def isWsChar (c : Char) : Bool :=
  c == ' ' || c == '\t' || c == '\n' || c == '\r'

/-- Models `String.prototype.trim`: drop whitespace at both ends. -/
def trimChars (l : List Char) : List Char :=
  ((l.dropWhile isWsChar).reverse.dropWhile isWsChar).reverse

/-- Models `trim` on strings. -/
def trimStr (s : String) : String :=
  ⟨trimChars s.toList⟩

/-- Models `String.prototype.toLowerCase` (ASCII range; the inputs only use
ASCII letters plus accented letters that `toLowerCase` leaves unchanged). -/
def toLowerStr (s : String) : String :=
  ⟨s.toList.map Char.toLower⟩

/-- Splits a character list at every occurrence of `sep` (models
`String.prototype.split` with a single-character separator). -/
def splitOnChar (sep : Char) : List Char → List (List Char)
  | [] => [[]]
  | c :: cs =>
    match splitOnChar sep cs with
    | [] => if c = sep then [[], []] else [[c]]
    | r :: rs => if c = sep then [] :: r :: rs else (c :: r) :: rs

/-- Does `pat` occur at the head of `hay`? -/
def subAt : List Char → List Char → Bool
  | [], _ => true
  | _ :: _, [] => false
  | c :: cs, h :: hs => c == h && subAt cs hs

/-- Does `pat` occur anywhere inside `hay`?  Models
`String.prototype.includes`. -/
def hasSub (pat : List Char) : List Char → Bool
  | [] => pat.isEmpty
  | h :: hs => subAt pat (h :: hs) || hasSub pat hs

/-- Substring containment on strings (JavaScript `includes`). -/
def hasSubStr (hay pat : String) : Bool :=
  hasSub pat.toList hay.toList

/-- Numeric value of a list of decimal digits (models `parseInt` on a string
of digits, leading zeroes allowed). -/
def digitsToInt (l : List Char) : Int :=
  (l.foldl (fun n c => n * 10 + (c.toNat - '0'.toNat)) 0 : Nat)

/-- Is `l` a run of `lo` to `hi` decimal digits? -/
def isDigits (l : List Char) (lo hi : Nat) : Bool :=
  l.all Char.isDigit && lo ≤ l.length && l.length ≤ hi

/-- Opening brace character, written via its code point. -/
def lbrace : Char := Char.ofNat 123

/-- Closing brace character, written via its code point. -/
def rbrace : Char := Char.ofNat 125

/-! ## Calendar model

JavaScript `Date` values are milliseconds since the epoch.  `new Date(y, m-1,
d, hh, mm, ss)` followed by the parsers' round-trip check (`getFullYear() ==
year && getMonth() == month-1 && getDate() == day`) accepts exactly the
component combinations that need no normalisation; two-digit years are
remapped by `Date` to 19xx and therefore always fail the check. -/

/-- Milliseconds in one day. -/
def msPerDay : Int := 86400000

/-- Days from 1970-01-01 to the civil date `y-m-d` (Gregorian, proleptic);
standard civil-from-days inverse, valid for the positive years produced by
the parsers. -/
def daysFromCivil (y m d : Int) : Int :=
  let y₂ := if m ≤ 2 then y - 1 else y
  let era := y₂ / 400
  let yoe := y₂ - era * 400
  let mp := if m > 2 then m - 3 else m + 9
  let doy := (153 * mp + 2) / 5 + d - 1
  let doe := yoe * 365 + yoe / 4 - yoe / 100 + doy
  era * 146097 + doe - 719468

/-- Gregorian leap-year test. -/
def isLeap (y : Int) : Bool :=
  (y % 4 == 0 && y % 100 != 0) || y % 400 == 0

/-- Number of days in month `m` of year `y`. -/
def daysInMonth (y m : Int) : Int :=
  if m = 2 then (if isLeap y then 29 else 28)
  else if m = 4 ∨ m = 6 ∨ m = 9 ∨ m = 11 then 30
  else 31

/-- Models `new Date(y, m-1, d)` plus an intra-day offset `timeMs`, together
with the parsers' round-trip validity check: the result is `some` exactly
when no component normalisation occurs (year at least 100, month in range,
day in range for the month, time offset within the day). -/
def mkValidDateMs (y m d timeMs : Int) : Option Int :=
  if 100 ≤ y ∧ 1 ≤ m ∧ m ≤ 12 ∧ 1 ≤ d ∧ d ≤ daysInMonth y m ∧
      0 ≤ timeMs ∧ timeMs < msPerDay then
    some (daysFromCivil y m d * msPerDay + timeMs)
  else
    none

/-- The far-future sentinel `new Date('2999-12-31')` used by `datesOverlap`
for permits with no end date. -/
def farFuture : Int := daysFromCivil 2999 12 31 * msPerDay

/-- Matches the anchored shape `d{1,2} sep d{1,2} sep d{4}` (or, when
`yearFirstQ` is true, `d{4} sep d{1,2} sep d{1,2}`), returning the components
as `(year, month, day)`.  The four backup date formats of both parsers are
instances of this shape. -/
def tryFormat (sep : Char) (yearFirstQ : Bool) (chars : List Char) :
    Option (Int × Int × Int) :=
  match splitOnChar sep chars with
  | [a, b, c] =>
    if yearFirstQ then
      if isDigits a 4 4 && isDigits b 1 2 && isDigits c 1 2 then
        some (digitsToInt a, digitsToInt b, digitsToInt c)
      else none
    else
      if isDigits a 1 2 && isDigits b 1 2 && isDigits c 4 4 then
        some (digitsToInt c, digitsToInt b, digitsToInt a)
      else none
  | _ => none

/-- The four backup date formats tried in order by both parsers:
`DD/MM/YYYY`, `DD-MM-YYYY`, `YYYY/MM/DD`, `YYYY-MM-DD`; a shape match with
invalid components yields `none` (the remaining shapes are mutually
exclusive with the matched one). -/
def backupParse (chars : List Char) : Option Int :=
  match tryFormat '/' false chars with
  | some (y, m, d) => mkValidDateMs y m d 0
  | none =>
    match tryFormat '-' false chars with
    | some (y, m, d) => mkValidDateMs y m d 0
    | none =>
      match tryFormat '/' true chars with
      | some (y, m, d) => mkValidDateMs y m d 0
      | none =>
        match tryFormat '-' true chars with
        | some (y, m, d) => mkValidDateMs y m d 0
        | none => none

/-- Matches the anchored GMT-tagged shape
`d{1,2}/d{1,2}/d{4} \s+ d{1,2}:d{1,2}:d{1,2}GMT` used only by the headerless
parser, returning the instant in milliseconds if the components survive the
round-trip validity check (a time offset reaching the next day fails it). -/
def parseGMT (chars : List Char) : Option Int :=
  let front := chars.takeWhile (fun c => !isWsChar c)
  let rest := chars.dropWhile (fun c => !isWsChar c)
  if rest.isEmpty then none
  else
    let tail := rest.dropWhile isWsChar
    match tryFormat '/' false front with
    | none => none
    | some (y, m, d) =>
      if tail.length < 3 then none
      else
        let timePart := tail.take (tail.length - 3)
        let gmtPart := tail.drop (tail.length - 3)
        if gmtPart = ['G', 'M', 'T'] then
          match splitOnChar ':' timePart with
          | [hh, mi, ss] =>
            if isDigits hh 1 2 && isDigits mi 1 2 && isDigits ss 1 2 then
              mkValidDateMs y m d
                (((digitsToInt hh * 60 + digitsToInt mi) * 60 + digitsToInt ss) * 1000)
            else none
          | _ => none
        else none

/-! ## The permit record

One record type serves both parsing dialects.  The header dialect produces
records without a `tipoMatricula` property (modelled as `none`) and without
`usuario`/`nota`/`rawInfo`; the headerless dialect fills all fields. -/

deriving instance DecidableEq for Except

/-- A parsed permit record (`createRecord` output of either dialect). -/
structure Record where
  matricula : String
  fechaInicio : Option Int
  fechaFin : Option Int
  socio : String
  usuario : String := ""
  nota : String := ""
  tipoMatricula : Option String := none
  lineNumber : Nat := 0
  rawInfo : String := ""
deriving DecidableEq, Repr, Inhabited

/-- A per-row error log entry. -/
structure RowError where
  line : Nat
  error : String
  data : String
deriving DecidableEq, Repr, Inhabited

/-! ## Header-dialect CSV parser (`csv-parser.js`, class `CSVParser`) -/

namespace HeaderCSV

/-- Field extraction of `parseLine`: a character scan over a comma-separated
line maintaining a quoted-field flag; doubled quotes inside quotes are an
escaped literal quote, quote characters themselves are stripped, and each
field is trimmed when pushed. -/
def parseLineAux (inQuotes : Bool) (current : List Char)
    (fields : List String) : List Char → List String
  | [] => fields ++ [⟨trimChars current⟩]
  | '"' :: '"' :: rest₂ =>
    if inQuotes then parseLineAux inQuotes (current ++ ['"']) fields rest₂
    else parseLineAux true current fields ('"' :: rest₂)
  | '"' :: rest => parseLineAux (!inQuotes) current fields rest
  | c :: rest =>
    if c = ',' ∧ inQuotes = false then
      parseLineAux inQuotes [] (fields ++ [⟨trimChars current⟩]) rest
    else
      parseLineAux inQuotes (current ++ [c]) fields rest

/-- Models `parseLine` of the header dialect. -/
def parseLine (line : String) : List String :=
  parseLineAux false [] [] line.toList

/-- Models `cleanPlate` of the header dialect: trim, uppercase, drop
whitespace, and keep only the characters `A`-`Z` and `0`-`9`. -/
def cleanPlate (plate : String) : String :=
  ⟨((trimChars plate.toList).map Char.toUpper).filter
    (fun c => ('A' ≤ c ∧ c ≤ 'Z') ∨ ('0' ≤ c ∧ c ≤ '9'))⟩

/-- Word characters of the JavaScript `\w` class. -/
def isWordChar (c : Char) : Bool :=
  ('a' ≤ c && c ≤ 'z') || ('A' ≤ c && c ≤ 'Z') || ('0' ≤ c && c ≤ '9') || c == '_'

/-- Uppercases every word character that follows a word boundary (the
`replace(/\b\w/g, upper)` step of `cleanMemberName`). -/
def titleCase : List Char → List Char
  | [] => []
  | c :: rest =>
    (if isWordChar c then c.toUpper else c) :: titleCaseAfter c rest
where
  /-- Continues `titleCase` knowing the previous character. -/
  titleCaseAfter (prev : Char) : List Char → List Char
    | [] => []
    | c :: rest =>
      (if isWordChar c && !isWordChar prev then c.toUpper else c) ::
        titleCaseAfter c rest

mutual

/-- Replaces every maximal whitespace run by a single space (the
`replace(/\s+/g, ' ')` step). -/
def collapseWs : List Char → List Char
  | [] => []
  | c :: rest =>
    if isWsChar c then ' ' :: collapseWsSkip rest
    else c :: collapseWs rest

/-- Skips the remainder of a whitespace run already replaced by one space. -/
def collapseWsSkip : List Char → List Char
  | [] => []
  | c :: rest =>
    if isWsChar c then collapseWsSkip rest
    else c :: collapseWs rest

end

/-- Models `cleanMemberName`: trim, collapse internal whitespace, lowercase,
then capitalise the first letter of every word. -/
def cleanMemberName (memberName : String) : String :=
  ⟨titleCase ((collapseWs (trimChars memberName.toList)).map Char.toLower)⟩

/-- Models `parseDate` of the header dialect: the four backup formats with the
round-trip validity check.  The final JavaScript fallback `new Date(cleaned)`
is a locale-dependent last resort that none of the supported input formats
reaches; it is modelled as unparseable. -/
def parseDate (dateStr : String) : Option Int :=
  let cleaned := trimChars dateStr.toList
  if cleaned.isEmpty then none else backupParse cleaned

/-- Resolved indices of the four required logical columns. -/
structure ColumnMapping where
  matricula : Nat
  fechaInicio : Nat
  fechaFin : Nat
  socio : Nat
deriving DecidableEq, Repr, Inhabited

/-- The alias table of `validateHeaders`, in the order the fields are
resolved. -/
def fieldMappings : List (String × List String) :=
  [("matricula", ["matricula", "matrícula", "placa", "plate", "license_plate"]),
   ("fecha_inicio", ["fecha_inicio", "fecha inicio", "start_date", "inicio", "from"]),
   ("fecha_fin", ["fecha_fin", "fecha fin", "end_date", "fin", "to", "hasta"]),
   ("socio", ["socio", "member", "miembro", "peticionario", "solicitante", "nombre"])]

/-- First header index whose lower-cased, trimmed text contains one of the
variations as a substring (the `findIndex`/`includes` search). -/
def resolveColumn (lowerHeaders : List String) (variations : List String) :
    Option Nat :=
  lowerHeaders.findIdx? (fun h => variations.any (fun v => hasSubStr h v))

/-- Models `validateHeaders`: resolves the four logical columns from the
header row, failing on the first unresolvable one. -/
def validateHeaders (headers : List String) : Except String ColumnMapping :=
  let lowerHeaders := headers.map (fun h => trimStr (toLowerStr h))
  match resolveColumn lowerHeaders (fieldMappings.getD 0 default).2 with
  | none => .error "No se encontró la columna requerida: matricula"
  | some im =>
    match resolveColumn lowerHeaders (fieldMappings.getD 1 default).2 with
    | none => .error "No se encontró la columna requerida: fecha_inicio"
    | some ii =>
      match resolveColumn lowerHeaders (fieldMappings.getD 2 default).2 with
      | none => .error "No se encontró la columna requerida: fecha_fin"
      | some if_ =>
        match resolveColumn lowerHeaders (fieldMappings.getD 3 default).2 with
        | none => .error "No se encontró la columna requerida: socio"
        | some is_ => .ok ⟨im, ii, if_, is_⟩

/-- Models `createRecord` of the header dialect.  No `tipoMatricula` is ever
assigned by this dialect (the field stays `none`). -/
def createRecord (cm : ColumnMapping) (lineData : List String)
    (lineNumber : Nat) : Except RowError Record :=
  let record : Record :=
    { matricula := cleanPlate (lineData.getD cm.matricula ""),
      fechaInicio := parseDate (lineData.getD cm.fechaInicio ""),
      fechaFin := parseDate (lineData.getD cm.fechaFin ""),
      socio := cleanMemberName (lineData.getD cm.socio ""),
      lineNumber := lineNumber }
  if record.matricula = "" ∨ record.socio = "" then
    .error ⟨lineNumber, "Matrícula o socio vacío", String.intercalate "," lineData⟩
  else if record.fechaInicio = none ∧ record.fechaFin = none then
    .error ⟨lineNumber, "Al menos una fecha debe ser válida", String.intercalate "," lineData⟩
  else
    .ok record

/-- The data-row loop of `parseCSVText`: rows with the expected field count
go through `createRecord`, short or long rows that are not all-blank are
logged as errors, all-blank rows are dropped.  `n` is the 1-based line number
of the first row. -/
def processRows (cm : ColumnMapping) (expected : Nat) :
    Nat → List String → List Record × List RowError
  | _, [] => ([], [])
  | n, l :: ls =>
    let lineData := parseLine l
    let (rs, es) := processRows cm expected (n + 1) ls
    if lineData.length = expected then
      match createRecord cm lineData n with
      | .ok r => (r :: rs, es)
      | .error e => (rs, e :: es)
    else if lineData.any (fun cell => trimStr cell ≠ "") then
      (rs, ⟨n, "Número incorrecto de columnas", String.intercalate "," lineData⟩ :: es)
    else
      (rs, es)

/-- The successful output of `parseCSVText`. -/
structure ParseResult where
  data : List Record
  headers : List String
  errors : List RowError
  totalLines : Nat
  validRecords : Nat
deriving DecidableEq, Repr, Inhabited

/-- Models `parseCSVText` of the header dialect: split into non-blank lines,
resolve the header, build records row by row, and fail the whole parse when
the input is empty, a required column is unresolvable, or no valid record
remains at the end. -/
def parseCSVText (csvText : String) : Except String ParseResult :=
  match (splitOnChar '\n' csvText.toList).map (fun l => (⟨l⟩ : String))
      |>.filter (fun l => trimStr l ≠ "") with
  | [] => .error "El archivo CSV está vacío"
  | headerLine :: dataLines =>
    let headers := parseLine headerLine
    match validateHeaders headers with
    | .error e => .error e
    | .ok cm =>
      match processRows cm headers.length 2 dataLines with
      | (data, errors) =>
        if data.isEmpty then
          .error "No se pudieron procesar datos válidos del archivo CSV"
        else
          .ok { data := data, headers := headers, errors := errors,
                totalLines := dataLines.length, validRecords := data.length }

end HeaderCSV

/-! ## Headerless semicolon-dialect parser (class `CSVParser`, headerless
variant; positional contract `matricula;info;fecha_inicio;fecha_fin`) -/

namespace HeaderlessCSV

/-- Field extraction of the headerless `parseLine`: semicolon-separated scan
that keeps quote characters in the field text, tracks brace nesting inside
quotes so an embedded structured value is not split, and trims each field on
push. -/
def parseLineAux (inQuotes : Bool) (braceCount : Int) (current : List Char)
    (fields : List String) : List Char → List String
  | [] => fields ++ [⟨trimChars current⟩]
  | '"' :: '"' :: rest₂ =>
    if inQuotes then
      parseLineAux inQuotes braceCount (current ++ ['"']) fields rest₂
    else
      parseLineAux true braceCount (current ++ ['"']) fields ('"' :: rest₂)
  | '"' :: rest =>
    parseLineAux (!inQuotes) braceCount (current ++ ['"']) fields rest
  | c :: rest =>
    if c = lbrace ∧ inQuotes = true then
      parseLineAux inQuotes (braceCount + 1) (current ++ [c]) fields rest
    else if c = rbrace ∧ inQuotes = true then
      parseLineAux inQuotes (braceCount - 1) (current ++ [c]) fields rest
    else if c = ';' ∧ inQuotes = false ∧ braceCount = 0 then
      parseLineAux inQuotes braceCount [] (fields ++ [⟨trimChars current⟩]) rest
    else
      parseLineAux inQuotes braceCount (current ++ [c]) fields rest

/-- Models `parseLine` of the headerless dialect. -/
def parseLine (line : String) : List String :=
  parseLineAux false 0 [] [] line.toList

/-- Models `cleanPlate` of the headerless dialect: trim, uppercase, drop
whitespace but keep every other character. -/
def cleanPlate (plate : String) : String :=
  ⟨((trimChars plate.toList).map Char.toUpper).filter (fun c => !isWsChar c)⟩

/-- Characters allowed inside a name segment of the member pattern
(everything except comma and square brackets). -/
def isNameChar (c : Char) : Bool :=
  !(c == ',' || c == '[' || c == ']')

/-- The greedy `(?:,[^,\[\]]+)*` continuation of the member pattern; `fuel`
bounds the recursion and always exceeds the input length where the function
is used, so it never runs out. -/
def segMore (fuel : Nat) (l : List Char) : List Char :=
  match fuel with
  | 0 => []
  | fuel + 1 =>
    match l with
    | [] => []
    | c :: rest =>
      if c = ',' then
        let seg := rest.takeWhile isNameChar
        if seg.isEmpty then []
        else ',' :: (seg ++ segMore fuel (rest.drop seg.length))
      else []

/-- Attempts the member pattern `(\d+)-([^,\[\]]+(?:,[^,\[\]]+)*)` anchored at
the head of `chars`, returning the two capture groups. -/
def socioMatchAt (chars : List Char) : Option (List Char × List Char) :=
  let digits := chars.takeWhile Char.isDigit
  if digits.isEmpty then none
  else
    match chars.drop digits.length with
    | '-' :: rest =>
      let seg := rest.takeWhile isNameChar
      if seg.isEmpty then none
      else some (digits, seg ++ segMore rest.length (rest.drop seg.length))
    | _ => none

/-- Leftmost match of the member pattern anywhere in `chars` (the unanchored
regex search of `extractSocioFromNote`). -/
def findSocioMatch : List Char → Option (List Char × List Char)
  | [] => none
  | c :: rest =>
    match socioMatchAt (c :: rest) with
    | some r => some r
    | none => findSocioMatch rest

/-- Models `extractSocioFromNote`: on a pattern match return
`numero-nombre` with the name trimmed, otherwise the whole trimmed note; an
empty note yields the empty string. -/
def extractSocioFromNote (note : String) : String :=
  if note = "" then ""
  else
    match findSocioMatch note.toList with
    | some (numero, nombre) => ⟨numero ++ ('-' :: trimChars nombre)⟩
    | none => trimStr note

/-- Mapping of a JSON string escape character to the character it denotes
(the escapes actually occurring in the inputs). -/
def escChar (c : Char) : Char :=
  if c = 'n' then '\n' else if c = 't' then '\t' else if c = 'r' then '\r' else c

/-- Parses the remainder of a JSON string literal (opening quote already
consumed), returning its contents and the rest of the input. -/
def jsonStringAux (acc : List Char) : List Char → Option (String × List Char)
  | [] => none
  | '"' :: rest => some (⟨acc.reverse⟩, rest)
  | '\\' :: c :: rest => jsonStringAux (escChar c :: acc) rest
  | c :: rest => jsonStringAux (c :: acc) rest

/-- Parses the pair list of a flat JSON object with string-valued fields
(`"k" : "v"` separated by commas and closed by a brace); `fuel` bounds the
recursion and is larger than the input length wherever the parser is used.
Models the successful runs of `JSON.parse` on the annotation objects of this
format; any other JSON shape is modelled as a parse failure. -/
def jsonPairsAux (fuel : Nat) (l : List Char) :
    Option (List (String × String) × List Char) :=
  match fuel with
  | 0 => none
  | fuel + 1 =>
    match l.dropWhile isWsChar with
    | '"' :: rest =>
      match jsonStringAux [] rest with
      | none => none
      | some (key, rest₂) =>
        match rest₂.dropWhile isWsChar with
        | ':' :: rest₃ =>
          match rest₃.dropWhile isWsChar with
          | '"' :: rest₄ =>
            match jsonStringAux [] rest₄ with
            | none => none
            | some (value, rest₅) =>
              match rest₅.dropWhile isWsChar with
              | ',' :: rest₆ =>
                match jsonPairsAux fuel rest₆ with
                | none => none
                | some (pairs, rest₇) => some ((key, value) :: pairs, rest₇)
              | c :: rest₆ =>
                if c = rbrace then some ([(key, value)], rest₆) else none
              | [] => none
          | _ => none
        | _ => none
    | _ => none

/-- Models `JSON.parse` on a flat string-valued object: the whole input must
be one object with nothing but whitespace around it. -/
def parseFlatJson (chars : List Char) : Option (List (String × String)) :=
  match chars.dropWhile isWsChar with
  | c :: rest =>
    if c = lbrace then
      match rest.dropWhile isWsChar with
      | c₂ :: rest₂ =>
        if c₂ = rbrace then
          if (rest₂.dropWhile isWsChar).isEmpty then some [] else none
        else
          match jsonPairsAux (rest.length + 1) rest with
          | some (pairs, rest₃) =>
            if (rest₃.dropWhile isWsChar).isEmpty then some pairs else none
          | none => none
      | [] => none
    else none
  | [] => none

/-- The member information extracted from the annotation field. -/
structure SocioInfo where
  socio : String
  usuario : String
  nota : String
deriving DecidableEq, Repr, Inhabited

/-- Models `extractSocioInfo`: a quoted JSON-like annotation with a non-empty
`note` field yields member/user/note from the object; anything else is
treated as a raw string whose member pattern (or the whole string) becomes
the member key. -/
def extractSocioInfo (infoField : String) : SocioInfo :=
  if infoField = "" then ⟨"", "", ""⟩
  else
    let chars := infoField.toList
    let fromString : SocioInfo :=
      ⟨extractSocioFromNote infoField, "", infoField⟩
    if chars.head? = some '"' ∧ chars.getLast? = some '"' then
      match parseFlatJson ((chars.drop 1).dropLast) with
      | some pairs =>
        match pairs.lookup "note" with
        | some note =>
          if note ≠ "" then
            ⟨extractSocioFromNote note, (pairs.lookup "user").getD "", note⟩
          else fromString
        | none => fromString
      | none => fromString
    else fromString

/-- Models `determineMatriculaType`: permanent without an end date,
unconditionally temporary with an end date but no start date, otherwise
temporary exactly when the day difference is at most 365. -/
def determineMatriculaType (fechaInicio fechaFin : Option Int) : String :=
  match fechaFin with
  | none => "permanente"
  | some fin =>
    match fechaInicio with
    | none => "temporal"
    | some inicio =>
      if ((fin - inicio : Int) : ℚ) / (1000 * 3600 * 24) ≤ 365 then "temporal"
      else "permanente"

/-- Models `parseDate` of the headerless dialect: the GMT-tagged format
first, then the four backup formats; no further fallback. -/
def parseDate (dateStr : String) : Option Int :=
  let cleaned := trimChars dateStr.toList
  if cleaned.isEmpty then none
  else
    match parseGMT cleaned with
    | some d => some d
    | none => backupParse cleaned

/-- Models `createRecord` of the headerless dialect; `now` is the build-time
clock used as the default start date when the start field is missing or
unparseable.  Note that `tipoMatricula` is computed from the start date
before the default is applied. -/
def createRecord (now : Int) (lineData : List String) (lineNumber : Nat) :
    Except RowError Record :=
  let matricula := cleanPlate (lineData.getD 0 "")
  let infoField := lineData.getD 1 ""
  let fechaInicio := parseDate (lineData.getD 2 "")
  let fechaFin :=
    if lineData.getD 3 "" ≠ "" then parseDate (lineData.getD 3 "") else none
  let socioInfo := extractSocioInfo infoField
  if matricula = "" then
    .error ⟨lineNumber, "Matrícula vacía", String.intercalate ";" lineData⟩
  else if socioInfo.socio = "" then
    .error ⟨lineNumber, "No se pudo extraer información del socio",
      String.intercalate ";" lineData⟩
  else
    .ok { matricula := matricula,
          fechaInicio := some (fechaInicio.getD now),
          fechaFin := fechaFin,
          socio := socioInfo.socio,
          usuario := socioInfo.usuario,
          nota := socioInfo.nota,
          tipoMatricula := some (determineMatriculaType fechaInicio fechaFin),
          lineNumber := lineNumber,
          rawInfo := infoField }

/-- The data-row loop of the headerless `parseCSVText`: rows with at least 3
fields go through `createRecord`, shorter rows that are not all-blank are
logged, all-blank rows are dropped. -/
def processRows (now : Int) : Nat → List String → List Record × List RowError
  | _, [] => ([], [])
  | n, l :: ls =>
    let lineData := parseLine l
    let (rs, es) := processRows now (n + 1) ls
    if 3 ≤ lineData.length then
      match createRecord now lineData n with
      | .ok r => (r :: rs, es)
      | .error e => (rs, e :: es)
    else if lineData.any (fun cell => trimStr cell ≠ "") then
      (rs, ⟨n, "Número insuficiente de columnas", String.intercalate ";" lineData⟩ :: es)
    else
      (rs, es)

/-- The successful output of the headerless `parseCSVText`. -/
structure ParseResult where
  data : List Record
  errors : List RowError
  totalLines : Nat
  validRecords : Nat
deriving DecidableEq, Repr, Inhabited

/-- Models the headerless `parseCSVText`: every non-blank line is a data row;
the whole parse fails when the input is empty or no valid record remains
after processing all rows. -/
def parseCSVText (now : Int) (csvText : String) : Except String ParseResult :=
  match (splitOnChar '\n' csvText.toList).map (fun l => (⟨l⟩ : String))
      |>.filter (fun l => trimStr l ≠ "") with
  | [] => .error "El archivo CSV está vacío"
  | l :: ls =>
    match processRows now 1 (l :: ls) with
    | (data, errors) =>
      if data.isEmpty then
        .error "No se pudieron procesar datos válidos del archivo CSV"
      else
        .ok { data := data, errors := errors,
              totalLines := (l :: ls).length, validRecords := data.length }

end HeaderlessCSV

/-! ## DataAnalyzer (grouping pass and per-member interval analytics) -/

namespace Analyzer

/-- The grouping key of `analyze`: the member string lower-cased and
trimmed. -/
def socioKey (s : String) : String :=
  trimStr (toLowerStr s)

/-- A per-member group as built by `analyze` (the fields the analytics
read). -/
structure Group where
  key : String
  socio : String
  matriculas : List Record
  temporales : Nat
  permanentes : Nat
  fechaUltimoRegistro : Option Int
deriving DecidableEq, Repr, Inhabited

/-- A freshly created group for the first record of a member. -/
def mkGroup (r : Record) : Group :=
  { key := socioKey r.socio, socio := r.socio, matriculas := [],
    temporales := 0, permanentes := 0, fechaUltimoRegistro := none }

/-- The per-record group update of `analyze`: append the record, bump the
type counter (anything not marked `temporal` counts as permanent), and
update the last-registration date; a missing date compares as the epoch, as
the JavaScript comparison coerces `null` to 0. -/
def appendToGroup (g : Group) (r : Record) : Group :=
  { g with
    matriculas := g.matriculas ++ [r],
    temporales :=
      if r.tipoMatricula = some "temporal" then g.temporales + 1 else g.temporales,
    permanentes :=
      if r.tipoMatricula = some "temporal" then g.permanentes else g.permanentes + 1,
    fechaUltimoRegistro :=
      if g.fechaUltimoRegistro = none ∨
          g.fechaUltimoRegistro.getD 0 < r.fechaInicio.getD 0 then
        r.fechaInicio
      else g.fechaUltimoRegistro }

/-- Routes one record into the ordered group list (the `Map` of `analyze`,
with its insertion-ordered iteration made explicit): append to the group
with the same key if one exists, otherwise create a new group at the end. -/
def insertRecord (gs : List Group) (r : Record) : List Group :=
  match gs with
  | [] => [appendToGroup (mkGroup r) r]
  | g :: rest =>
    if g.key = socioKey r.socio then appendToGroup g r :: rest
    else g :: insertRecord rest r

/-- The grouping pass of `analyze` over the record list. -/
def groupData (records : List Record) : List Group :=
  records.foldl insertRecord []

/-- Flattens the per-member permit lists back into one record list. -/
def flattenGroups (gs : List Group) : List Record :=
  (gs.map Group.matriculas).flatten

/-- JavaScript `Math.round`: the floor of `x + 1/2`. -/
def jsRound (x : ℚ) : Int :=
  ⌊x + 1 / 2⌋

/-- The permit duration in days used by the analytics:
`Math.ceil((fechaFin - fechaInicio) / msPerDay)`.  Only applied to records
whose two dates are present. -/
def permitDays (r : Record) : Int :=
  ⌈((r.fechaFin.getD 0 - r.fechaInicio.getD 0 : Int) : ℚ) / (1000 * 60 * 60 * 24)⌉

/-- The qualifying filter of `calculateAveragePermitDays` (and of the peak
sweep): temporary permits with both dates present. -/
def isTemporalWithDates (r : Record) : Bool :=
  r.tipoMatricula = some "temporal" && r.fechaInicio.isSome && r.fechaFin.isSome

/-- Models `calculateAveragePermitDays`: over temporary permits with both
dates, sum each duration clamped to at least 1 day, and return the mean
rounded to one decimal, or 0 when no permit qualifies. -/
def calculateAveragePermitDays (matriculas : List Record) : ℚ :=
  let temporales := matriculas.filter isTemporalWithDates
  if temporales.length = 0 then 0
  else
    let totalDias := temporales.foldl (fun sum m => sum + max 1 (permitDays m)) 0
    (jsRound ((totalDias : ℚ) / (temporales.length : ℚ) * 10) : ℚ) / 10

/-- Models `datesOverlap`: false when either start date is missing; a missing
end date becomes the far-future sentinel; intersection is tested with strict
inequalities. -/
def datesOverlap (inicio1 fin1 inicio2 fin2 : Option Int) : Bool :=
  match inicio1, inicio2 with
  | some i1, some i2 =>
    let f1 := fin1.getD farFuture
    let f2 := fin2.getD farFuture
    decide (i1 < f2) && decide (i2 < f1)
  | _, _ => false

/-- Models `countOverlappingPlates`: over every unordered pair of records in
list order, count the pairs with different plates whose date ranges overlap
according to `datesOverlap`. -/
def countOverlappingPlates : List Record → Nat
  | [] => 0
  | m :: rest =>
    rest.countP (fun m₂ =>
      decide (m.matricula ≠ m₂.matricula) &&
        datesOverlap m.fechaInicio m.fechaFin m₂.fechaInicio m₂.fechaFin) +
      countOverlappingPlates rest

/-- A start or end event of the peak sweep. -/
structure Evento where
  fecha : Int
  tipo : String
  matricula : String
deriving DecidableEq, Repr, Inhabited

/-- Stable insertion of an event into a date-sorted event list: an event goes
before the first strictly later event, modelling the stable
`sort((a, b) => a.fecha - b.fecha)`. -/
def insertEvento (e : Evento) : List Evento → List Evento
  | [] => [e]
  | x :: xs => if e.fecha ≤ x.fecha then e :: x :: xs else x :: insertEvento e xs

/-- Stable sort of the event list by ascending date. -/
def sortEventos : List Evento → List Evento
  | [] => []
  | e :: es => insertEvento e (sortEventos es)

/-- The details recorded the first time a new maximum is reached. -/
structure PeakDetails where
  cantidad : Int
  fecha : Option Int
  matriculas : List String
deriving DecidableEq, Repr, Inhabited

/-- The running state of the peak sweep. -/
structure PeakState where
  activas : Int
  maxSimultaneas : Int
  matriculasActivas : List String
  peakDetails : PeakDetails
deriving DecidableEq, Repr, Inhabited

/-- Insertion into the active set (`Set.add`: no effect when present). -/
def addActive (s : List String) (m : String) : List String :=
  if m ∈ s then s else s ++ [m]

/-- One step of the sweep: a start event increments the active count and may
record a new peak; any other event decrements it and removes the plate. -/
def peakStep (st : PeakState) (ev : Evento) : PeakState :=
  if ev.tipo = "inicio" then
    let activas := st.activas + 1
    let set := addActive st.matriculasActivas ev.matricula
    if st.maxSimultaneas < activas then
      { activas := activas, maxSimultaneas := activas,
        matriculasActivas := set,
        peakDetails := ⟨activas, some ev.fecha, set⟩ }
    else
      { st with activas := activas, matriculasActivas := set }
  else
    { st with
      activas := st.activas - 1,
      matriculasActivas := st.matriculasActivas.erase ev.matricula }

/-- The result of `findPeakSimultaneous`. -/
structure PeakResult where
  count : Int
  details : PeakDetails
deriving DecidableEq, Repr, Inhabited

/-- The sweep of `findPeakSimultaneous` over an already-filtered list of
temporary permits: two events per permit in list order, sorted by date, then
folded through `peakStep` from the zero state. -/
def peakOfTemporales (ts : List Record) : PeakResult :=
  let eventos :=
    (ts.map (fun m =>
      [(⟨m.fechaInicio.getD 0, "inicio", m.matricula⟩ : Evento),
       (⟨m.fechaFin.getD 0, "fin", m.matricula⟩ : Evento)])).flatten
  let final := (sortEventos eventos).foldl peakStep ⟨0, 0, [], ⟨0, none, []⟩⟩
  { count := final.maxSimultaneas, details := final.peakDetails }

/-- Models `findPeakSimultaneous`: restrict to temporary permits with both
dates, then run the sweep. -/
def findPeakSimultaneous (matriculas : List Record) : PeakResult :=
  peakOfTemporales (matriculas.filter isTemporalWithDates)

end Analyzer

/-! ## Specification-side definitions

The following definitions follow the wording of the specification (they are
the second leg of the refinement claims C3 and C4) and are compared against
the code-derived definitions above. -/

/-- Number of unordered pairs of records satisfying `P`, enumerated in list
order ("for every unordered pair of permits"). -/
def pairCount (P : Record → Record → Bool) : List Record → Nat
  | [] => 0
  | m :: rest => rest.countP (P m) + pairCount P rest

/-- The specification's pair predicate for `overlapCount`, read with closed
intervals: different plates, both start dates present (a pair with a missing
start date is excluded), and the `[start, end]` intervals intersect, a
missing end date standing for the far-future sentinel. -/
def specPairClosed (m₁ m₂ : Record) : Bool :=
  match m₁.fechaInicio, m₂.fechaInicio with
  | some s₁, some s₂ =>
    decide (m₁.matricula ≠ m₂.matricula) &&
      (decide (s₁ ≤ m₂.fechaFin.getD farFuture) &&
       decide (s₂ ≤ m₁.fechaFin.getD farFuture))
  | _, _ => false

/-- `overlapCount` as the specification words it (closed-interval reading of
"the [start,end] intervals intersect"). -/
def specOverlapCount : List Record → Nat :=
  pairCount specPairClosed

/-- The pair predicate with the boundary semantics the code actually uses:
the intervals must intersect in a non-degenerate span (strict inequalities
`start1 < end2` and `start2 < end1`), so intervals that merely touch do not
count. -/
def specPairStrict (m₁ m₂ : Record) : Bool :=
  match m₁.fechaInicio, m₂.fechaInicio with
  | some s₁, some s₂ =>
    decide (m₁.matricula ≠ m₂.matricula) &&
      (decide (s₁ < m₂.fechaFin.getD farFuture) &&
       decide (s₂ < m₁.fechaFin.getD farFuture))
  | _, _ => false

/-- `overlapCount` per the amended claim: strict boundary semantics. -/
def specOverlapCountStrict : List Record → Nat :=
  pairCount specPairStrict

/-- `averageDuration` as the specification words it: over the temporary
permits with both dates present, each duration is `ceil((end - start) / 1
day)` clamped to a minimum of 1; the result is the mean of those durations
rounded to one decimal, or 0 when no permit qualifies. -/
def specAverageDuration (subset : List Record) : ℚ :=
  let durations :=
    (subset.filter Analyzer.isTemporalWithDates).map
      (fun m => max 1 (Analyzer.permitDays m))
  if durations.length = 0 then 0
  else (Analyzer.jsRound ((durations.sum : ℚ) / (durations.length : ℚ) * 10) : ℚ) / 10

/-! ## Concrete inputs used by the claims -/

/-- The Scenario A input: the canonical header row followed by the two
header-dialect data rows of the claim. -/
def c1Text : String :=
  "matricula,fecha_inicio,fecha_fin,socio\nABC123,01/01/2024,10/01/2024,Juan Pérez\nABC123,05/01/2024,15/01/2024,Juan Pérez"

/-- The records produced by the header-dialect parse of the Scenario A
input. -/
def c1Data : List Record :=
  match HeaderCSV.parseCSVText c1Text with
  | .ok r => r.data
  | .error _ => []

/-- The member groups produced by the grouping pass on the Scenario A
records. -/
def c1Groups : List Analyzer.Group :=
  Analyzer.groupData c1Data

/-- The single member group of Scenario A. -/
def c1Group : Analyzer.Group :=
  c1Groups.getD 0 default

/-- A permit that is not temporary (no end date, marked permanent), used to
instantiate the peak claim. -/
def c2Perm : Record :=
  { matricula := "7777XYZ", fechaInicio := some 1704067200000, fechaFin := none,
    socio := "1-SOCIO", tipoMatricula := some "permanente" }

/-- A permit on the closed interval from day 0 to day 5. -/
def c3a : Record :=
  { matricula := "AAA111", fechaInicio := some 0, fechaFin := some (5 * msPerDay),
    socio := "1-SOCIO", tipoMatricula := some "temporal" }

/-- A permit on the closed interval from day 5 to day 9 (touching `c3a` at
day 5) under a different plate. -/
def c3b : Record :=
  { matricula := "BBB222", fechaInicio := some (5 * msPerDay),
    fechaFin := some (9 * msPerDay),
    socio := "1-SOCIO", tipoMatricula := some "temporal" }

/-- A minimal header-dialect input with one valid data row. -/
def c6HeaderSample : String :=
  "matricula,fecha_inicio,fecha_fin,socio\nABC123,01/01/2024,10/01/2024,Juan Perez"

/-- A minimal headerless-dialect input with one valid data row. -/
def c6HeaderlessSample : String :=
  "1234ABC;111-PEREZ, JUAN;01/01/2024"

/-- A headerless row whose start-date field is empty (unparseable). -/
def c8Input : List String :=
  ["1234ABC", "111-PEREZ, JUAN", "", ""]

/-- The record built from `c8Input` at build time 0. -/
def c8Rec : Record :=
  ((HeaderlessCSV.createRecord 0 c8Input 1).toOption).getD default

/-- A permit under plate `CCC333` ending exactly at day 20. -/
def c9m1 : Record :=
  { matricula := "CCC333", fechaInicio := some (10 * msPerDay),
    fechaFin := some (20 * msPerDay),
    socio := "2-SOCIO", tipoMatricula := some "temporal" }

/-- A permit under plate `DDD444` starting exactly at day 20, touching
`c9m1`. -/
def c9m2 : Record :=
  { matricula := "DDD444", fechaInicio := some (20 * msPerDay),
    fechaFin := some (30 * msPerDay),
    socio := "2-SOCIO", tipoMatricula := some "temporal" }

/-! ## Claims -/

/-- C5: for every permit record, the derived type is `permanente` when the
end date is absent; with both dates present it is `temporal` exactly when the
span from start to end is at most 365 days and `permanente` beyond that, so a
400-day permit is classified permanent. -/
theorem claim5_type_classification :
    (∀ i : Option Int, HeaderlessCSV.determineMatriculaType i none = "permanente") ∧
    (∀ s e : Int, HeaderlessCSV.determineMatriculaType (some s) (some e) =
      if e - s ≤ 365 * msPerDay then "temporal" else "permanente") ∧
    HeaderlessCSV.determineMatriculaType (some 0) (some (400 * msPerDay)) =
      "permanente" := by
  refine ⟨fun i => rfl, fun s e => ?_, by
    norm_num [HeaderlessCSV.determineMatriculaType, msPerDay]⟩
  have h : (((e - s : Int) : ℚ) / (1000 * 3600 * 24) ≤ 365) ↔
      (e - s ≤ 365 * msPerDay) := by
    rw [div_le_iff₀ (by norm_num)]
    constructor <;> intro h
    · exact_mod_cast h
    · exact_mod_cast h
  simp only [HeaderlessCSV.determineMatriculaType, h]

/-- C10: a permit with an end date but no start date is classified `temporal`
unconditionally; the 365-day comparison is only reached when both dates are
present. -/
theorem claim10_no_start_is_temporal :
    ∀ e : Int, HeaderlessCSV.determineMatriculaType none (some e) = "temporal" :=
  fun _ => rfl

set_option maxRecDepth 40000 in
/-- C1 (counterexample): on the Scenario A rows the pipeline does produce
exactly one member group, but the group carries 0 temporary permits (the
header dialect never assigns a type), `overlapCount` is 0 (both rows share
the plate `ABC123` and same-plate pairs are skipped) and the peak count is 0
— not the claimed 2, 1 and 2. -/
theorem claim1_counterexample :
    c1Groups.length = 1 ∧
    ¬(c1Group.temporales = 2 ∧
      Analyzer.countOverlappingPlates c1Group.matriculas = 1 ∧
      (Analyzer.findPeakSimultaneous c1Group.matriculas).count = 2) := by
  decide

set_option maxRecDepth 40000 in
/-- C1 (amended): the Scenario A rows produce exactly one member group with
both permits; the header dialect assigns no permit type, so the group counts
0 temporary and 2 permanent permits, `overlapCount` on the group is 0
because same-plate pairs are never counted, and `peakSimultaneous` returns
count 0 because no permit is typed `temporal`. -/
theorem claim1_amended :
    c1Groups.length = 1 ∧
    c1Group.matriculas.length = 2 ∧
    c1Group.temporales = 0 ∧
    c1Group.permanentes = 2 ∧
    Analyzer.countOverlappingPlates c1Group.matriculas = 0 ∧
    (Analyzer.findPeakSimultaneous c1Group.matriculas).count = 0 := by
  decide

/-- C2: the peak sweep is insensitive to permits that are not temporary with
both dates present (restricting the subset to the qualifying permits leaves
the result unchanged), and on a subset with no temporary permit at all the
returned count is 0. -/
theorem claim2_peak_only_temporal (l : List Record) :
    Analyzer.findPeakSimultaneous l =
      Analyzer.findPeakSimultaneous (l.filter Analyzer.isTemporalWithDates) ∧
    ((∀ m ∈ l, m.tipoMatricula ≠ some "temporal") →
      (Analyzer.findPeakSimultaneous l).count = 0) := by
  constructor
  · show Analyzer.peakOfTemporales _ = Analyzer.peakOfTemporales _
    rw [List.filter_filter]
    simp only [Bool.and_self]
  · intro h
    have hnil : l.filter Analyzer.isTemporalWithDates = [] := by
      rw [List.filter_eq_nil_iff]
      intro a ha
      simp [Analyzer.isTemporalWithDates, h a ha]
    show (Analyzer.peakOfTemporales _).count = 0
    rw [hnil]
    rfl

/-- C2 (witness): a subset consisting of one permanent permit satisfies the
hypothesis and gets peak count 0. -/
theorem claim2_witness :
    (∀ m ∈ [c2Perm], m.tipoMatricula ≠ some "temporal") ∧
    (Analyzer.findPeakSimultaneous [c2Perm]).count = 0 :=
  ⟨by decide, (claim2_peak_only_temporal [c2Perm]).2 (by decide)⟩

/-- C9: two permits with different plates whose intervals merely touch (the
end date of one equals the start date of the other) are not counted as
overlapping: `datesOverlap` tests with strict inequalities, so
`countOverlappingPlates` on the pair is 0. -/
theorem claim9_touching_intervals_not_counted (m₁ m₂ : Record) (t : Int)
    (_hne : m₁.matricula ≠ m₂.matricula)
    (h : (m₁.fechaFin = some t ∧ m₂.fechaInicio = some t) ∨
         (m₂.fechaFin = some t ∧ m₁.fechaInicio = some t)) :
    Analyzer.datesOverlap m₁.fechaInicio m₁.fechaFin m₂.fechaInicio m₂.fechaFin
      = false ∧
    Analyzer.countOverlappingPlates [m₁, m₂] = 0 := by
  have hov : Analyzer.datesOverlap m₁.fechaInicio m₁.fechaFin
      m₂.fechaInicio m₂.fechaFin = false := by
    rcases h with ⟨hf, hi⟩ | ⟨hf, hi⟩
    · cases hm : m₁.fechaInicio <;>
        simp [Analyzer.datesOverlap, hf, hi, hm, lt_irrefl]
    · cases hm : m₂.fechaInicio <;>
        simp [Analyzer.datesOverlap, hf, hi, hm, lt_irrefl]
  refine ⟨hov, ?_⟩
  simp [Analyzer.countOverlappingPlates, hov]

/-- C9 (witness): the permits `c9m1` and `c9m2` touch at day 20 under
different plates and are not counted. -/
theorem claim9_witness :
    c9m1.matricula ≠ c9m2.matricula ∧
    Analyzer.datesOverlap c9m1.fechaInicio c9m1.fechaFin c9m2.fechaInicio
      c9m2.fechaFin = false ∧
    Analyzer.countOverlappingPlates [c9m1, c9m2] = 0 :=
  ⟨by decide,
   claim9_touching_intervals_not_counted c9m1 c9m2 (20 * msPerDay) (by decide)
     (Or.inl ⟨by decide, by decide⟩)⟩

/-- C8: every record accepted by the headerless `createRecord` carries a
start date: a missing or unparseable start field is not a rejection reason —
the record is built with the current time as its start date. -/
theorem claim8_start_date_defaulted (now : Int) (lineData : List String)
    (n : Nat) (r : Record)
    (h : HeaderlessCSV.createRecord now lineData n = .ok r) :
    r.fechaInicio.isSome = true ∧
    (HeaderlessCSV.parseDate (lineData.getD 2 "") = none →
      r.fechaInicio = some now) := by
  simp only [HeaderlessCSV.createRecord] at h
  split_ifs at h <;>
    first
      | exact Except.noConfusion h
      | (injection h with h
         subst h
         refine ⟨rfl, fun hn => ?_⟩
         show some ((HeaderlessCSV.parseDate (lineData.getD 2 "")).getD now) =
           some now
         rw [hn]
         rfl)

/-- C8 (witness): the row `c8Input` has an empty start-date field, is
accepted, and gets start date `now` (here 0). -/
theorem claim8_witness :
    HeaderlessCSV.parseDate (c8Input.getD 2 "") = none ∧
    c8Rec.fechaInicio = some 0 := by
  have h : HeaderlessCSV.createRecord 0 c8Input 1 = .ok c8Rec := by decide
  exact ⟨by decide, (claim8_start_date_defaulted 0 c8Input 1 c8Rec h).2 (by decide)⟩

/-- C6: in both dialects, a successful parse always carries at least one
valid record — when zero records pass validation after processing all rows,
`parseCSVText` aborts the whole ingestion with a thrown error instead of
returning an empty record set. -/
theorem claim6_zero_valid_is_fatal (text : String) :
    (∀ r : HeaderCSV.ParseResult,
      HeaderCSV.parseCSVText text = .ok r → r.data ≠ []) ∧
    (∀ (now : Int) (r : HeaderlessCSV.ParseResult),
      HeaderlessCSV.parseCSVText now text = .ok r → r.data ≠ []) := by
  constructor
  · intro r h
    unfold HeaderCSV.parseCSVText at h
    split at h
    · simp at h
    · simp only [] at h
      split at h
      · simp at h
      · split at h
        · simp at h
        · injection h with h
          subst h
          simp_all [List.isEmpty_iff]
  · intro now r h
    unfold HeaderlessCSV.parseCSVText at h
    split at h
    · simp at h
    · simp only [] at h
      split at h
      · simp at h
      · injection h with h
        subst h
        simp_all [List.isEmpty_iff]

/-- C6 (witness): both sample inputs parse successfully and indeed carry a
non-empty record list. -/
theorem claim6_witness :
    (match HeaderCSV.parseCSVText c6HeaderSample with
      | .ok r => r.data ≠ []
      | .error _ => False) ∧
    (match HeaderlessCSV.parseCSVText 0 c6HeaderlessSample with
      | .ok r => r.data ≠ []
      | .error _ => False) := by
  constructor
  · have hok : (HeaderCSV.parseCSVText c6HeaderSample).isOk = true := by decide
    cases hr : HeaderCSV.parseCSVText c6HeaderSample with
    | ok r => exact (claim6_zero_valid_is_fatal c6HeaderSample).1 r hr
    | error e => rw [hr] at hok; exact Bool.noConfusion hok
  · have hok : (HeaderlessCSV.parseCSVText 0 c6HeaderlessSample).isOk = true := by
      decide
    cases hr : HeaderlessCSV.parseCSVText 0 c6HeaderlessSample with
    | ok r => exact (claim6_zero_valid_is_fatal c6HeaderlessSample).2 0 r hr
    | error e => rw [hr] at hok; exact Bool.noConfusion hok

/-- The pair predicate evaluated by `countOverlappingPlates` coincides with
the strict-boundary pair predicate. -/
theorem codePair_eq_specPairStrict (m₁ m₂ : Record) :
    (decide (m₁.matricula ≠ m₂.matricula) &&
      Analyzer.datesOverlap m₁.fechaInicio m₁.fechaFin m₂.fechaInicio
        m₂.fechaFin) = specPairStrict m₁ m₂ := by
  cases h₁ : m₁.fechaInicio <;> cases h₂ : m₂.fechaInicio <;>
    simp [Analyzer.datesOverlap, specPairStrict, h₁, h₂]

/-- C3 (counterexample): on the pair `c3a`, `c3b` — different plates, the
first interval ending exactly where the second starts — the code counts 0
overlapping pairs while the specification's closed-interval pair count is 1,
so `overlapCount` does not equal the number of pairs whose `[start, end]`
intervals intersect. -/
theorem claim3_counterexample :
    ¬(Analyzer.countOverlappingPlates [c3a, c3b] = specOverlapCount [c3a, c3b]) ∧
    Analyzer.countOverlappingPlates [c3a, c3b] = 0 ∧
    specOverlapCount [c3a, c3b] = 1 := by
  decide

/-- C3 (amended): for every subset, `overlapCount` equals the number of
unordered pairs of permits with different plates whose `[start, end]`
intervals intersect in a non-degenerate span (strict inequalities
`start1 < end2` and `start2 < end1`, so intervals that merely touch at a
boundary instant are not counted), where a missing end date is treated as
the far-future sentinel and a pair with a missing start date is excluded. -/
theorem claim3_overlap_pairs :
    ∀ l : List Record,
      Analyzer.countOverlappingPlates l = specOverlapCountStrict l := by
  intro l
  induction l with
  | nil => rfl
  | cons m rest ih =>
    simp only [Analyzer.countOverlappingPlates, specOverlapCountStrict,
      pairCount] at ih ⊢
    rw [List.countP_congr (fun m₂ _ => by rw [codePair_eq_specPairStrict m m₂]),
      ih]

/-- Summation form of the duration accumulator of
`calculateAveragePermitDays`. -/
theorem foldl_duration_eq_sum (l : List Record) (init : Int) :
    l.foldl (fun sum m => sum + max 1 (Analyzer.permitDays m)) init =
      init + (l.map (fun m => max 1 (Analyzer.permitDays m))).sum := by
  induction l generalizing init with
  | nil => simp
  | cons m t ih => simp [ih, add_assoc]

/-- C4: `averageDuration` computes, over exactly the temporary permits with
both dates, each duration as the ceiling of the day difference clamped to a
minimum of 1, and returns the mean of those durations rounded to one
decimal, or 0 when no permit qualifies. -/
theorem claim4_average_duration :
    ∀ l : List Record,
      Analyzer.calculateAveragePermitDays l = specAverageDuration l := by
  intro l
  unfold Analyzer.calculateAveragePermitDays specAverageDuration
  simp only [List.length_map]
  by_cases h : (l.filter Analyzer.isTemporalWithDates).length = 0
  · simp [h]
  · simp only [h, if_false, foldl_duration_eq_sum, zero_add]

/-- Inserting one record into the group list adds exactly that record to the
flattened permit multiset. -/
theorem flatten_insertRecord_perm (gs : List Analyzer.Group) (r : Record) :
    (Analyzer.flattenGroups (Analyzer.insertRecord gs r)).Perm
      (Analyzer.flattenGroups gs ++ [r]) := by
  induction gs with
  | nil =>
    simp [Analyzer.insertRecord, Analyzer.flattenGroups, Analyzer.appendToGroup,
      Analyzer.mkGroup]
  | cons g rest ih =>
    by_cases h : g.key = Analyzer.socioKey r.socio
    · simp only [Analyzer.insertRecord, h, if_true, Analyzer.flattenGroups,
        List.map_cons, List.flatten_cons, Analyzer.appendToGroup]
      rw [List.append_assoc, List.append_assoc]
      exact List.Perm.append_left _ List.perm_append_comm
    · simp only [Analyzer.insertRecord, h, if_false, Analyzer.flattenGroups,
        List.map_cons, List.flatten_cons]
      rw [List.append_assoc]
      exact List.Perm.append_left _ ih

/-- Folding the grouping step over a record list appends exactly those
records (as a multiset) to the flattened permits. -/
theorem flatten_foldl_insert_perm (l : List Record) (gs : List Analyzer.Group) :
    (Analyzer.flattenGroups (l.foldl Analyzer.insertRecord gs)).Perm
      (Analyzer.flattenGroups gs ++ l) := by
  induction l generalizing gs with
  | nil => simp
  | cons r t ih =>
    simp only [List.foldl_cons]
    refine (ih _).trans ?_
    refine ((flatten_insertRecord_perm gs r).append_right t).trans ?_
    rw [List.append_assoc]
    exact List.Perm.refl _

/-- C7: flattening the per-member permit lists produced by the grouping pass
yields a multiset equal to the original record list — every record lands in
exactly one group and none is duplicated or dropped. -/
theorem claim7_grouping_roundtrip (l : List Record) :
    (↑(Analyzer.flattenGroups (Analyzer.groupData l)) : Multiset Record) =
      (↑l : Multiset Record) := by
  rw [Multiset.coe_eq_coe]
  have h := flatten_foldl_insert_perm l []
  simpa [Analyzer.flattenGroups] using h
